import Mathlib

/-!
Verification of the outbreak analyser pipeline.

The script loads a case line list (rows with an identifier and planar x, y
coordinates) and a gridded population raster, computes the pairwise
Euclidean distance matrix of the cases, selects the outbreak centre as the
case at the row index of the maximum matrix entry, sums the population in a
square window around the centre, and reports the percentage affected.

Modelling conventions:
* numeric input values (coordinates, grid cells, distances) are modelled as
  rationals: every finite floating-point value is a rational number;
* distance values, which involve a square root, live in the reals;
* numpy slice semantics, including the treatment of negative slice
  endpoints, are embedded faithfully in `sliceBound`;
* Python `int()` truncation toward zero is embedded in `truncQ`.
-/

/-- A row of the case line list `case_locations.csv`: identifier in
column 0, x coordinate in column 1, y coordinate in column 2. -/
structure Case where
  id : ℚ
  x : ℚ
  y : ℚ

/-- Broadcast difference of the x coordinates: entry (i, j) of
`locations[:, 1].reshape(-1, 1) - locations[:, 1]`. -/
noncomputable def x_diff (loc : ℕ → Case) (i j : ℕ) : ℝ :=
  ((loc i).x : ℝ) - ((loc j).x : ℝ)

/-- Broadcast difference of the y coordinates: entry (i, j) of
`locations[:, 2].reshape(-1, 1) - locations[:, 2]`. -/
noncomputable def y_diff (loc : ℕ → Case) (i j : ℕ) : ℝ :=
  ((loc i).y : ℝ) - ((loc j).y : ℝ)

/-- `calculate_distance_matrix`: entry (i, j) is
`np.sqrt(x_diff ** 2 + y_diff ** 2)`. -/
noncomputable def calculate_distance_matrix (loc : ℕ → Case) (i j : ℕ) : ℝ :=
  Real.sqrt (x_diff loc i j ^ 2 + y_diff loc i j ^ 2)

/-- `np.argmax` over `f 0, ..., f (size - 1)`: index of the first maximum
in scan order (numpy scans a flattened array in row-major order and keeps
the first occurrence of the maximum). -/
noncomputable def np_argmax (f : ℕ → ℝ) (size : ℕ) : ℕ :=
  (List.range size).foldl (fun best k => if f best < f k then k else best) 0

/-- `np.max` over `f 0, ..., f (size - 1)` (meaningful for `1 ≤ size`). -/
noncomputable def np_max (f : ℕ → ℝ) (size : ℕ) : ℝ :=
  (List.range size).foldl (fun acc k => max acc (f k)) (f 0)

/-- The n×n distance matrix read off in row-major (C) order, as
`np.argmax` flattens it: flat index k holds entry (k / n, k % n). -/
noncomputable def flat_distance (loc : ℕ → Case) (n k : ℕ) : ℝ :=
  calculate_distance_matrix loc (k / n) (k % n)

/-- `find_outbreak_centre`: `np.unravel_index(np.argmax(M), (n, n))`
yields (k / n, k % n) for the winning flat index k; the function returns
`locations[k / n, 1:3]`, the (x, y) pair of that row. -/
noncomputable def find_outbreak_centre (n : ℕ) (loc : ℕ → Case) : ℚ × ℚ :=
  let k := np_argmax (flat_distance loc n) (n * n)
  ((loc (k / n)).x, (loc (k / n)).y)

/-- Python `int()` applied to a rational: truncation toward zero. -/
def truncQ (q : ℚ) : ℤ :=
  if q < 0 then ⌈q⌉ else ⌊q⌋

/-- Effective bound of a Python/numpy slice endpoint `v` on an axis of
length `L`: a negative endpoint counts from the end of the axis
(`v + L`, floored at 0), a non-negative endpoint is capped at `L`. -/
def sliceBound (L : ℕ) (v : ℤ) : ℕ :=
  if v < 0 then (v + L).toNat else min v.toNat L

/-- `find_affected_population`: the grid has shape
(east_west_cells, north_south_cells) = (ew, ns); cell_size is 100 m; the
centre is divided by cell_size, the range is `int(max_distance / 100)`,
and the result is `np.sum(grid[start_i:end_i, start_j:end_j])` with
`start_i = max(0, int(cx - r))`, `end_i = min(ew, int(cx + r + 1))` and
likewise for the j axis. -/
def find_affected_population (grid : ℕ → ℕ → ℚ) (ew ns : ℕ)
    (centre : ℚ × ℚ) (max_distance : ℚ) : ℚ :=
  let cell_size : ℚ := 100
  let cx : ℚ := centre.1 / cell_size
  let cy : ℚ := centre.2 / cell_size
  let ew_range : ℤ := truncQ (max_distance / cell_size)
  let ns_range : ℤ := truncQ (max_distance / cell_size)
  let start_i : ℤ := max 0 (truncQ (cx - ew_range))
  let end_i : ℤ := min (ew : ℤ) (truncQ (cx + ew_range + 1))
  let start_j : ℤ := max 0 (truncQ (cy - ns_range))
  let end_j : ℤ := min (ns : ℤ) (truncQ (cy + ns_range + 1))
  ∑ i in Finset.Ico (sliceBound ew start_i) (sliceBound ew end_i),
    ∑ j in Finset.Ico (sliceBound ns start_j) (sliceBound ns end_j),
      grid i j

/-- `total_population = np.sum(population_matrix)`. -/
def total_population (grid : ℕ → ℕ → ℚ) (ew ns : ℕ) : ℚ :=
  ∑ i in Finset.range ew, ∑ j in Finset.range ns, grid i j

/-- The pipeline's percentage step
`(affected_population / total_population) * 100`.  numpy float division
by a zero total does not raise: it yields an undefined NaN/inf-like
value, modelled here as `none`; a nonzero total yields the exact
quotient. -/
def percentage_affected (affected total : ℚ) : Option ℚ :=
  if total = 0 then none else some (affected / total * 100)

/-- Modelled from the spec (claim wording, not the source): the sum over
all grid indices lying in the real interval
[centre_cell - r, centre_cell + r] inclusive on each axis, clamped to the
grid bounds.  Used to compare the specified window with the implemented
one. -/
def window_sum_claimed (grid : ℕ → ℕ → ℚ) (ew ns : ℕ)
    (centre : ℚ × ℚ) (max_distance : ℚ) : ℚ :=
  let r : ℤ := truncQ (max_distance / 100)
  let cx : ℚ := centre.1 / 100
  let cy : ℚ := centre.2 / 100
  ∑ i in Finset.range ew, ∑ j in Finset.range ns,
    if cx - r ≤ (i : ℚ) ∧ (i : ℚ) ≤ cx + r ∧
        cy - r ≤ (j : ℚ) ∧ (j : ℚ) ≤ cy + r then grid i j else 0

/-! ### Properties of the `np.argmax` model -/

theorem np_argmax_zero (f : ℕ → ℝ) : np_argmax f 0 = 0 := rfl

theorem np_argmax_succ (f : ℕ → ℝ) (n : ℕ) :
    np_argmax f (n + 1) =
      if f (np_argmax f n) < f n then n else np_argmax f n := by
  unfold np_argmax
  rw [List.range_succ, List.foldl_append]
  rfl

theorem np_argmax_lt (f : ℕ → ℝ) (n : ℕ) (hn : 1 ≤ n) : np_argmax f n < n := by
  induction n with
  | zero => omega
  | succ m ih =>
    rw [np_argmax_succ]
    by_cases hc : f (np_argmax f m) < f m
    · rw [if_pos hc]; omega
    · rw [if_neg hc]
      rcases Nat.eq_zero_or_pos m with h | h
      · subst h
        rw [np_argmax_zero]
        omega
      · exact Nat.lt_succ_of_lt (ih h)

theorem np_argmax_is_max (f : ℕ → ℝ) (n : ℕ) :
    ∀ m < n, f m ≤ f (np_argmax f n) := by
  induction n with
  | zero => intro m hm; omega
  | succ k ih =>
    intro m hm
    rw [np_argmax_succ]
    by_cases hc : f (np_argmax f k) < f k
    · rw [if_pos hc]
      rcases Nat.lt_succ_iff_lt_or_eq.mp hm with h | h
      · exact (ih m h).trans (le_of_lt hc)
      · subst h; exact le_refl _
    · rw [if_neg hc]
      rcases Nat.lt_succ_iff_lt_or_eq.mp hm with h | h
      · exact ih m h
      · subst h; exact le_of_not_lt hc

theorem np_argmax_first (f : ℕ → ℝ) (n : ℕ) :
    ∀ m < np_argmax f n, f m < f (np_argmax f n) := by
  induction n with
  | zero =>
    intro m hm
    rw [np_argmax_zero] at hm
    omega
  | succ k ih =>
    intro m hm
    rw [np_argmax_succ] at hm ⊢
    by_cases hc : f (np_argmax f k) < f k
    · rw [if_pos hc] at hm ⊢
      exact lt_of_le_of_lt (np_argmax_is_max f k m hm) hc
    · rw [if_neg hc] at hm ⊢
      exact ih m hm

/-! ### Claims about the distance matrix and the outbreak centre -/

/-- C5: entry (i, j) of `calculate_distance_matrix` is exactly the planar
Euclidean distance between case i and case j, i.e. the distance of the
points (x_i, y_i) and (x_j, y_j) in the Euclidean plane, with x taken
from column 1 and y from column 2 of the input rows. -/
theorem calculate_distance_matrix_euclidean (loc : ℕ → Case) (i j : ℕ) :
    calculate_distance_matrix loc i j =
      dist ((WithLp.equiv 2 (Fin 2 → ℝ)).symm ![((loc i).x : ℝ), ((loc i).y : ℝ)])
        ((WithLp.equiv 2 (Fin 2 → ℝ)).symm ![((loc j).x : ℝ), ((loc j).y : ℝ)]) := by
  rw [EuclideanSpace.dist_eq, Fin.sum_univ_two]
  unfold calculate_distance_matrix x_diff y_diff
  norm_num [Real.dist_eq, sq_abs, WithLp.equiv_symm_pi_apply]

/-- C6: the distance matrix is symmetric, has an exactly zero diagonal,
and all its entries are non-negative. -/
theorem calculate_distance_matrix_sym_diag_nonneg (loc : ℕ → Case) (i j : ℕ) :
    calculate_distance_matrix loc i j = calculate_distance_matrix loc j i ∧
    calculate_distance_matrix loc i i = 0 ∧
    0 ≤ calculate_distance_matrix loc i j := by
  refine ⟨?_, ?_, Real.sqrt_nonneg _⟩
  · unfold calculate_distance_matrix x_diff y_diff
    congr 1
    ring
  · unfold calculate_distance_matrix x_diff y_diff
    simp

/-- C1: for N ≥ 1 cases, `find_outbreak_centre` returns the (x, y) pair
of the row index of the maximum entry of the distance matrix, ties among
equal maximal entries broken by the first occurrence in row-major scan
order (flat index k ↦ entry (k / n, k % n)); the winning row index is
below n, so the centre is one of the input case coordinates. -/
theorem find_outbreak_centre_correct (n : ℕ) (loc : ℕ → Case) (hn : 1 ≤ n) :
    ∃ k < n * n,
      (∀ m < n * n, flat_distance loc n m ≤ flat_distance loc n k) ∧
      (∀ m < k, flat_distance loc n m < flat_distance loc n k) ∧
      k / n < n ∧
      find_outbreak_centre n loc = ((loc (k / n)).x, (loc (k / n)).y) := by
  have hnn : 1 ≤ n * n := Nat.one_le_iff_ne_zero.mpr (by positivity)
  refine ⟨np_argmax (flat_distance loc n) (n * n),
    np_argmax_lt _ _ hnn, np_argmax_is_max _ _, np_argmax_first _ _, ?_, rfl⟩
  have h := np_argmax_lt (flat_distance loc n) (n * n) hnn
  exact Nat.div_lt_of_lt_mul h

theorem find_outbreak_centre_correct_witness :
    1 ≤ 1 ∧
      ∃ k < 1 * 1,
        (∀ m < 1 * 1,
          flat_distance (fun _ => ⟨0, 2, 3⟩) 1 m ≤
            flat_distance (fun _ => ⟨0, 2, 3⟩) 1 k) ∧
        (∀ m < k,
          flat_distance (fun _ => ⟨0, 2, 3⟩) 1 m <
            flat_distance (fun _ => ⟨0, 2, 3⟩) 1 k) ∧
        k / 1 < 1 ∧
        find_outbreak_centre 1 (fun _ => ⟨0, 2, 3⟩) =
          (((fun _ => (⟨0, 2, 3⟩ : Case)) (k / 1)).x,
            ((fun _ => (⟨0, 2, 3⟩ : Case)) (k / 1)).y) :=
  ⟨le_refl 1, find_outbreak_centre_correct 1 (fun _ => ⟨0, 2, 3⟩) (le_refl 1)⟩

/-- C8: with a single case (N = 1) the distance matrix is the 1×1 zero
matrix, the maximum distance `np.max` over it is 0, and
`find_outbreak_centre` returns exactly that case's (x, y) coordinate. -/
theorem single_case_centre (loc : ℕ → Case) :
    calculate_distance_matrix loc 0 0 = 0 ∧
    np_max (flat_distance loc 1) (1 * 1) = 0 ∧
    find_outbreak_centre 1 loc = ((loc 0).x, (loc 0).y) := by
  have hdiag : calculate_distance_matrix loc 0 0 = 0 := by
    simp [calculate_distance_matrix, x_diff, y_diff]
  have hflat : flat_distance loc 1 0 = calculate_distance_matrix loc 0 0 := rfl
  have harg : np_argmax (flat_distance loc 1) (1 * 1) = 0 := by
    show np_argmax (flat_distance loc 1) 1 = 0
    unfold np_argmax
    rw [show List.range 1 = [0] from rfl]
    simp
  refine ⟨hdiag, ?_, ?_⟩
  · show np_max (flat_distance loc 1) 1 = 0
    unfold np_max
    rw [show List.range 1 = [0] from rfl]
    simp [hflat, hdiag]
  · simp [find_outbreak_centre, harg]

/-- C9: the percentage step performs the division with no zero-total
guard: a zero total yields the undefined NaN/inf-like value (`none`)
rather than a raised, specified error, and any nonzero total yields
exactly affected / total · 100. -/
theorem percentage_affected_unguarded (affected total : ℚ) :
    percentage_affected affected 0 = none ∧
    (total ≠ 0 →
      percentage_affected affected total = some (affected / total * 100)) := by
  constructor
  · rfl
  · intro h
    unfold percentage_affected
    rw [if_neg h]

theorem percentage_affected_unguarded_witness :
    percentage_affected 5 0 = none ∧
    percentage_affected 5 2 = some (5 / 2 * 100) :=
  ⟨(percentage_affected_unguarded 5 2).1,
    (percentage_affected_unguarded 5 2).2 (by norm_num)⟩

/-! ### Properties of truncation and slice bounds -/

theorem truncQ_of_nonneg {q : ℚ} (h : 0 ≤ q) : truncQ q = ⌊q⌋ := by
  unfold truncQ
  rw [if_neg (not_lt.mpr h)]

theorem truncQ_eq_zero {q : ℚ} (h1 : -1 < q) (h2 : q < 1) : truncQ q = 0 := by
  unfold truncQ
  by_cases h : q < 0
  · rw [if_pos h, Int.ceil_eq_iff]
    constructor
    · push_cast
      linarith
    · push_cast
      linarith
  · rw [if_neg h, Int.floor_eq_iff]
    have h0 : 0 ≤ q := not_lt.mp h
    constructor
    · push_cast
      linarith
    · push_cast
      linarith

theorem truncQ_mono {a b : ℚ} (h : a ≤ b) : truncQ a ≤ truncQ b := by
  unfold truncQ
  by_cases ha : a < 0
  · by_cases hb : b < 0
    · rw [if_pos ha, if_pos hb]
      exact Int.ceil_mono h
    · rw [if_pos ha, if_neg hb]
      have h1 : ⌈a⌉ ≤ 0 := Int.ceil_le.mpr (by exact_mod_cast le_of_lt ha)
      have h2 : 0 ≤ ⌊b⌋ := Int.floor_nonneg.mpr (not_lt.mp hb)
      omega
  · have hb : ¬b < 0 := not_lt.mpr ((not_lt.mp ha).trans h)
    rw [if_neg ha, if_neg hb]
    exact Int.floor_mono h

theorem floor_le_truncQ (q : ℚ) : ⌊q⌋ ≤ truncQ q := by
  unfold truncQ
  by_cases h : q < 0
  · rw [if_pos h]
    exact Int.floor_le_ceil q
  · rw [if_neg h]

theorem sliceBound_le (L : ℕ) (v : ℤ) : sliceBound L v ≤ L := by
  unfold sliceBound
  by_cases h : v < 0
  · rw [if_pos h]
    omega
  · rw [if_neg h]
    omega

/-- The i and j index windows of `find_affected_population`, as numpy
resolves the computed slice endpoints on an axis of length L. -/
def axisWindow (L : ℕ) (c : ℚ) (r : ℤ) : Finset ℕ :=
  Finset.Ico (sliceBound L (max 0 (truncQ (c - r))))
    (sliceBound L (min (L : ℤ) (truncQ (c + r + 1))))

theorem find_affected_population_eq (grid : ℕ → ℕ → ℚ) (ew ns : ℕ)
    (centre : ℚ × ℚ) (d : ℚ) :
    find_affected_population grid ew ns centre d =
      ∑ i in axisWindow ew (centre.1 / 100) (truncQ (d / 100)),
        ∑ j in axisWindow ns (centre.2 / 100) (truncQ (d / 100)),
          grid i j := rfl

theorem mem_axisWindow {L : ℕ} {c : ℚ} {r : ℤ} (hc : 0 ≤ c) (hr : 0 ≤ r)
    (i : ℕ) :
    i ∈ axisWindow L c r ↔
      i < L ∧ ⌊c - (r : ℚ)⌋ ≤ (i : ℤ) ∧ (i : ℤ) ≤ ⌊c + (r : ℚ)⌋ := by
  have hF : 0 ≤ ⌊c⌋ := Int.floor_nonneg.mpr hc
  have hsub : ⌊c - (r : ℚ)⌋ = ⌊c⌋ - r := Int.floor_sub_int c r
  have hadd : ⌊c + (r : ℚ)⌋ = ⌊c⌋ + r := Int.floor_add_int c r
  have hA1 : ⌊c⌋ - r ≤ truncQ (c - r) := by
    rw [← hsub]
    exact floor_le_truncQ _
  have hA2 : truncQ (c - r) ≤ 0 ∨ truncQ (c - r) = ⌊c⌋ - r := by
    unfold truncQ
    by_cases h : c - (r : ℚ) < 0
    · left
      rw [if_pos h]
      exact Int.ceil_le.mpr (by exact_mod_cast le_of_lt h)
    · right
      rw [if_neg h]
      exact hsub
  have hT : truncQ (c + (r : ℚ) + 1) = ⌊c⌋ + r + 1 := by
    have hr0 : (0 : ℚ) ≤ (r : ℚ) := by exact_mod_cast hr
    have hpos : ¬(c + (r : ℚ) + 1 < 0) := by
      push_neg
      linarith
    unfold truncQ
    rw [if_neg hpos,
      show c + (r : ℚ) + 1 = c + ((r + 1 : ℤ) : ℚ) by push_cast; ring,
      Int.floor_add_int]
    ring
  unfold axisWindow sliceBound
  rw [Finset.mem_Ico, hT, hsub, hadd]
  rw [if_neg (not_lt.mpr (le_max_left 0 _)),
    if_neg (not_lt.mpr (le_min (by positivity) (by omega)))]
  generalize truncQ (c - (r : ℚ)) = A at hA1 hA2
  omega

theorem truncQ_eq_of_nonneg {q : ℚ} {n : ℤ} (h0 : 0 ≤ q) (h1 : (n : ℚ) ≤ q)
    (h2 : q < n + 1) : truncQ q = n := by
  rw [truncQ_of_nonneg h0, Int.floor_eq_iff]
  exact ⟨h1, by exact_mod_cast h2⟩

theorem truncQ_eq_of_neg {q : ℚ} {n : ℤ} (h0 : q < 0) (h1 : (n : ℚ) - 1 < q)
    (h2 : q ≤ n) : truncQ q = n := by
  unfold truncQ
  rw [if_pos h0, Int.ceil_eq_iff]
  exact ⟨by exact_mod_cast h1, h2⟩

/-- Evaluation helper: once the five truncations and the four resolved
slice endpoints are known, `find_affected_population` is the plain
double sum over the resulting index ranges. -/
theorem find_affected_population_eval (grid : ℕ → ℕ → ℚ) (ew ns : ℕ)
    (centre : ℚ × ℚ) (d : ℚ) (r a b c e : ℤ) (lo1 hi1 lo2 hi2 : ℕ)
    (hr : truncQ (d / 100) = r)
    (ha : truncQ (centre.1 / 100 - r) = a)
    (hb : truncQ (centre.1 / 100 + r + 1) = b)
    (hc : truncQ (centre.2 / 100 - r) = c)
    (he : truncQ (centre.2 / 100 + r + 1) = e)
    (h1 : sliceBound ew (max 0 a) = lo1)
    (h2 : sliceBound ew (min (ew : ℤ) b) = hi1)
    (h3 : sliceBound ns (max 0 c) = lo2)
    (h4 : sliceBound ns (min (ns : ℤ) e) = hi2) :
    find_affected_population grid ew ns centre d =
      ∑ i in Finset.Ico lo1 hi1, ∑ j in Finset.Ico lo2 hi2, grid i j := by
  simp only [find_affected_population]
  rw [hr, ha, hb, hc, he, h1, h2, h3, h4]

/-- C2 (amended): for non-negative centre coordinates and non-negative
max_distance, the summation window of `find_affected_population` is, on
each axis independently, the integer window
[⌊centre_cell - r⌋, ⌊centre_cell + r⌋] inclusive (floors of the interval
ends, not the real interval itself), clamped to the grid bounds
[0, grid_dimension); the result is the sum of the grid over that
window. -/
theorem find_affected_population_window (grid : ℕ → ℕ → ℚ) (ew ns : ℕ)
    (centre : ℚ × ℚ) (d : ℚ)
    (hx : 0 ≤ centre.1) (hy : 0 ≤ centre.2) (hd : 0 ≤ d) :
    find_affected_population grid ew ns centre d =
      ∑ i in Finset.range ew, ∑ j in Finset.range ns,
        if (⌊centre.1 / 100 - (⌊d / 100⌋ : ℚ)⌋ ≤ (i : ℤ) ∧
              (i : ℤ) ≤ ⌊centre.1 / 100 + (⌊d / 100⌋ : ℚ)⌋) ∧
            (⌊centre.2 / 100 - (⌊d / 100⌋ : ℚ)⌋ ≤ (j : ℤ) ∧
              (j : ℤ) ≤ ⌊centre.2 / 100 + (⌊d / 100⌋ : ℚ)⌋)
          then grid i j else 0 := by
  have hd0 : (0 : ℚ) ≤ d / 100 := by positivity
  have hrt : truncQ (d / 100) = ⌊d / 100⌋ := truncQ_of_nonneg hd0
  have hr : (0 : ℤ) ≤ ⌊d / 100⌋ := Int.floor_nonneg.mpr hd0
  have hxc : (0 : ℚ) ≤ centre.1 / 100 := by positivity
  have hyc : (0 : ℚ) ≤ centre.2 / 100 := by positivity
  rw [find_affected_population_eq, hrt]
  have hiw : axisWindow ew (centre.1 / 100) ⌊d / 100⌋ =
      (Finset.range ew).filter (fun i : ℕ =>
        ⌊centre.1 / 100 - (⌊d / 100⌋ : ℚ)⌋ ≤ (i : ℤ) ∧
          (i : ℤ) ≤ ⌊centre.1 / 100 + (⌊d / 100⌋ : ℚ)⌋) := by
    ext i
    rw [Finset.mem_filter, Finset.mem_range, mem_axisWindow hxc hr]
  have hjw : axisWindow ns (centre.2 / 100) ⌊d / 100⌋ =
      (Finset.range ns).filter (fun j : ℕ =>
        ⌊centre.2 / 100 - (⌊d / 100⌋ : ℚ)⌋ ≤ (j : ℤ) ∧
          (j : ℤ) ≤ ⌊centre.2 / 100 + (⌊d / 100⌋ : ℚ)⌋) := by
    ext j
    rw [Finset.mem_filter, Finset.mem_range, mem_axisWindow hyc hr]
  rw [hiw, hjw, Finset.sum_filter]
  refine Finset.sum_congr rfl ?_
  intro i _
  by_cases hPi : ⌊centre.1 / 100 - (⌊d / 100⌋ : ℚ)⌋ ≤ (i : ℤ) ∧
      (i : ℤ) ≤ ⌊centre.1 / 100 + (⌊d / 100⌋ : ℚ)⌋
  · rw [if_pos hPi, Finset.sum_filter]
    refine Finset.sum_congr rfl ?_
    intro j _
    by_cases hPj : ⌊centre.2 / 100 - (⌊d / 100⌋ : ℚ)⌋ ≤ (j : ℤ) ∧
        (j : ℤ) ≤ ⌊centre.2 / 100 + (⌊d / 100⌋ : ℚ)⌋
    · rw [if_pos hPj, if_pos ⟨hPi, hPj⟩]
    · rw [if_neg hPj, if_neg (by tauto)]
  · rw [if_neg hPi]
    symm
    apply Finset.sum_eq_zero
    intro j _
    rw [if_neg (by tauto)]

/-- C2 is false as read from the spec: with centre (250, 0) and
max_distance 100 the centre cell coordinate is 2.5, the claimed
real-interval window [1.5, 3.5] holds only the indices 2 and 3, yet the
implementation also includes index 1 (truncation of the interval ends),
so it counts population the claimed window misses. -/
theorem find_affected_population_window_counterexample :
    find_affected_population (fun i _ => if i = 1 then (7 : ℚ) else 0) 4 1
        (250, 0) 100 = 7 ∧
    window_sum_claimed (fun i _ => if i = 1 then (7 : ℚ) else 0) 4 1
        (250, 0) 100 = 0 := by
  have h100 : truncQ ((100 : ℚ) / 100) = 1 :=
    truncQ_eq_of_nonneg (by norm_num) (by norm_num) (by norm_num)
  constructor
  · rw [find_affected_population_eval (fun i _ => if i = 1 then (7 : ℚ) else 0)
      4 1 (250, 0) 100 1 1 4 (-1) 2 1 4 0 1
      h100
      (truncQ_eq_of_nonneg (by norm_num) (by norm_num) (by norm_num))
      (truncQ_eq_of_nonneg (by norm_num) (by norm_num) (by norm_num))
      (truncQ_eq_of_neg (by norm_num) (by norm_num) (by norm_num))
      (truncQ_eq_of_nonneg (by norm_num) (by norm_num) (by norm_num))
      (by decide) (by decide) (by decide) (by decide)]
    norm_num [Finset.sum_Ico_eq_sum_range, Finset.sum_range_succ,
      Finset.sum_range_zero]
  · have h1q : truncQ (1 : ℚ) = 1 :=
      truncQ_eq_of_nonneg (by norm_num) (by norm_num) (by norm_num)
    norm_num [window_sum_claimed, h100, h1q, Finset.sum_range_succ,
      Finset.sum_range_zero]

theorem find_affected_population_window_witness :
    (0 : ℚ) ≤ 250 ∧ (0 : ℚ) ≤ 120 ∧ (0 : ℚ) ≤ 150 ∧
    find_affected_population (fun i j => (i * 10 + j : ℚ)) 4 3 (250, 120)
        150 =
      ∑ i in Finset.range 4, ∑ j in Finset.range 3,
        if (⌊(250 : ℚ) / 100 - (⌊(150 : ℚ) / 100⌋ : ℚ)⌋ ≤ (i : ℤ) ∧
              (i : ℤ) ≤ ⌊(250 : ℚ) / 100 + (⌊(150 : ℚ) / 100⌋ : ℚ)⌋) ∧
            (⌊(120 : ℚ) / 100 - (⌊(150 : ℚ) / 100⌋ : ℚ)⌋ ≤ (j : ℤ) ∧
              (j : ℤ) ≤ ⌊(120 : ℚ) / 100 + (⌊(150 : ℚ) / 100⌋ : ℚ)⌋)
          then (i * 10 + j : ℚ) else 0 :=
  ⟨by norm_num, by norm_num, by norm_num,
    find_affected_population_window (fun i j => (i * 10 + j : ℚ)) 4 3
      (250, 120) 150 (by norm_num) (by norm_num) (by norm_num)⟩

/-- C3 is false as stated: the outbreak centre (-50, 50) lies outside the
grid bounds (negative x coordinate), yet with max_distance 300 the
computed window is not empty: on a 2×2 grid holding 5 in every cell the
function returns 20 (the whole grid), not 0. -/
theorem outside_centre_counterexample :
    ((-50 : ℚ), (50 : ℚ)).1 < 0 ∧
    find_affected_population (fun _ _ => (5 : ℚ)) 2 2 (-50, 50) 300 = 20 := by
  constructor
  · norm_num
  · rw [find_affected_population_eval (fun _ _ => (5 : ℚ)) 2 2 (-50, 50) 300
      3 (-3) 3 (-2) 4 0 2 0 2
      (truncQ_eq_of_nonneg (by norm_num) (by norm_num) (by norm_num))
      (truncQ_eq_of_neg (by norm_num) (by norm_num) (by norm_num))
      (truncQ_eq_of_nonneg (by norm_num) (by norm_num) (by norm_num))
      (truncQ_eq_of_neg (by norm_num) (by norm_num) (by norm_num))
      (truncQ_eq_of_nonneg (by norm_num) (by norm_num) (by norm_num))
      (by decide) (by decide) (by decide) (by decide)]
    norm_num [Finset.sum_Ico_eq_sum_range, Finset.sum_range_succ,
      Finset.sum_range_zero]

/-- C3 (amended): the function never raises, and the window genuinely is
empty — giving affected population 0 — when on the x axis the centre cell
coordinate lies strictly between -(r + 2) and -r (just outside the origin
side of the grid); for centres further out the negative slice endpoint
wraps around (numpy semantics) and the result can be nonzero. -/
theorem outside_centre_zero (grid : ℕ → ℕ → ℚ) (ew ns : ℕ) (centre : ℚ × ℚ)
    (d : ℚ) (hd : 0 ≤ d)
    (h1 : centre.1 / 100 < -((truncQ (d / 100) : ℚ)))
    (h2 : -((truncQ (d / 100) : ℚ)) - 2 < centre.1 / 100) :
    find_affected_population grid ew ns centre d = 0 := by
  rw [find_affected_population_eq]
  have hz : truncQ (centre.1 / 100 + (truncQ (d / 100) : ℚ) + 1) = 0 :=
    truncQ_eq_zero (by linarith) (by linarith)
  have hempty : axisWindow ew (centre.1 / 100) (truncQ (d / 100)) = ∅ := by
    unfold axisWindow
    rw [hz]
    rw [show min (ew : ℤ) 0 = 0 by omega]
    rw [show sliceBound ew 0 = 0 by unfold sliceBound; norm_num]
    exact Finset.Ico_eq_empty (by omega)
  rw [hempty, Finset.sum_empty]

theorem outside_centre_zero_witness :
    (0 : ℚ) ≤ 0 ∧
    ((-50 : ℚ), (0 : ℚ)).1 / 100 < -((truncQ ((0 : ℚ) / 100) : ℚ)) ∧
    -((truncQ ((0 : ℚ) / 100) : ℚ)) - 2 < ((-50 : ℚ), (0 : ℚ)).1 / 100 ∧
    find_affected_population (fun _ _ => 1) 2 2 (-50, 0) 0 = 0 := by
  have h0 : truncQ ((0 : ℚ) / 100) = 0 :=
    truncQ_eq_of_nonneg (by norm_num) (by norm_num) (by norm_num)
  have ha : ((-50 : ℚ), (0 : ℚ)).1 / 100 < -((truncQ ((0 : ℚ) / 100) : ℚ)) := by
    rw [h0]
    norm_num
  have hb : -((truncQ ((0 : ℚ) / 100) : ℚ)) - 2 <
      ((-50 : ℚ), (0 : ℚ)).1 / 100 := by
    rw [h0]
    norm_num
  exact ⟨le_refl 0, ha, hb,
    outside_centre_zero (fun _ _ => 1) 2 2 (-50, 0) 0 (le_refl 0) ha hb⟩

/-- C4 is false as stated: the aggregation is not monotone in
max_distance for every centre.  With a non-negative 2×1 grid and the
out-of-grid centre (-350, 50), growing max_distance from 100 to 200 moves
the truncated slice endpoint from -1 (which numpy wraps to row 1,
a one-row window) to 0 (an empty window), so the affected population
drops from 5 to 0. -/
theorem affected_monotone_counterexample :
    (0 : ℚ) ≤ 100 ∧ (100 : ℚ) ≤ 200 ∧
    (∀ i j : ℕ, 0 ≤ (fun i (_ : ℕ) => if i = 0 then (5 : ℚ) else 7) i j) ∧
    find_affected_population (fun i _ => if i = 0 then (5 : ℚ) else 7) 2 1
        (-350, 50) 200 <
      find_affected_population (fun i _ => if i = 0 then (5 : ℚ) else 7) 2 1
        (-350, 50) 100 := by
  refine ⟨by norm_num, by norm_num, ?_, ?_⟩
  · intro i j
    dsimp only
    split
    · norm_num
    · norm_num
  · rw [find_affected_population_eval (fun i _ => if i = 0 then (5 : ℚ) else 7)
      2 1 (-350, 50) 100 1 (-4) (-1) 0 2 0 1 0 1
      (truncQ_eq_of_nonneg (by norm_num) (by norm_num) (by norm_num))
      (truncQ_eq_of_neg (by norm_num) (by norm_num) (by norm_num))
      (truncQ_eq_of_neg (by norm_num) (by norm_num) (by norm_num))
      (truncQ_eq_of_neg (by norm_num) (by norm_num) (by norm_num))
      (truncQ_eq_of_nonneg (by norm_num) (by norm_num) (by norm_num))
      (by decide) (by decide) (by decide) (by decide)]
    rw [find_affected_population_eval (fun i _ => if i = 0 then (5 : ℚ) else 7)
      2 1 (-350, 50) 200 2 (-5) 0 (-1) 3 0 0 0 1
      (truncQ_eq_of_nonneg (by norm_num) (by norm_num) (by norm_num))
      (truncQ_eq_of_neg (by norm_num) (by norm_num) (by norm_num))
      (truncQ_eq_of_neg (by norm_num) (by norm_num) (by norm_num))
      (truncQ_eq_of_neg (by norm_num) (by norm_num) (by norm_num))
      (truncQ_eq_of_nonneg (by norm_num) (by norm_num) (by norm_num))
      (by decide) (by decide) (by decide) (by decide)]
    norm_num [Finset.sum_Ico_eq_sum_range, Finset.sum_range_succ,
      Finset.sum_range_zero]

/-- C4 (amended): for a grid with non-negative entries and a centre with
non-negative coordinates, the affected population is monotonically
non-decreasing in max_distance: the index window only grows with the
truncated cell range. -/
theorem affected_monotone (grid : ℕ → ℕ → ℚ) (ew ns : ℕ) (centre : ℚ × ℚ)
    (d1 d2 : ℚ) (hg : ∀ i j, 0 ≤ grid i j)
    (hx : 0 ≤ centre.1) (hy : 0 ≤ centre.2) (hd1 : 0 ≤ d1) (hd12 : d1 ≤ d2) :
    find_affected_population grid ew ns centre d1 ≤
      find_affected_population grid ew ns centre d2 := by
  rw [find_affected_population_eq, find_affected_population_eq]
  have hxc : (0 : ℚ) ≤ centre.1 / 100 := by positivity
  have hyc : (0 : ℚ) ≤ centre.2 / 100 := by positivity
  have hr1 : (0 : ℤ) ≤ truncQ (d1 / 100) := by
    rw [truncQ_of_nonneg (by positivity)]
    exact Int.floor_nonneg.mpr (by positivity)
  have hr12 : truncQ (d1 / 100) ≤ truncQ (d2 / 100) :=
    truncQ_mono (by linarith)
  have hr2 : (0 : ℤ) ≤ truncQ (d2 / 100) := le_trans hr1 hr12
  have hsub : ∀ (L : ℕ) (c : ℚ), 0 ≤ c →
      axisWindow L c (truncQ (d1 / 100)) ⊆
        axisWindow L c (truncQ (d2 / 100)) := by
    intro L c hc i hi
    rw [mem_axisWindow hc hr1, Int.floor_sub_int, Int.floor_add_int] at hi
    rw [mem_axisWindow hc hr2, Int.floor_sub_int, Int.floor_add_int]
    omega
  refine le_trans
    (Finset.sum_le_sum fun i _ =>
      Finset.sum_le_sum_of_subset_of_nonneg (hsub ns (centre.2 / 100) hyc)
        fun j _ _ => hg i j)
    (Finset.sum_le_sum_of_subset_of_nonneg (hsub ew (centre.1 / 100) hxc)
      fun i _ _ => Finset.sum_nonneg fun j _ => hg i j)

theorem affected_monotone_witness :
    (∀ i j : ℕ, 0 ≤ (fun (_ : ℕ) (_ : ℕ) => (1 : ℚ)) i j) ∧
    (0 : ℚ) ≤ 0 ∧ (0 : ℚ) ≤ 0 ∧ (0 : ℚ) ≤ 0 ∧ (0 : ℚ) ≤ 100 ∧
    find_affected_population (fun _ _ => (1 : ℚ)) 2 2 (0, 0) 0 ≤
      find_affected_population (fun _ _ => (1 : ℚ)) 2 2 (0, 0) 100 :=
  ⟨fun i j => by norm_num, le_refl 0, le_refl 0,
    le_refl 0, by norm_num,
    affected_monotone (fun _ _ => 1) 2 2 (0, 0) 0 100
      (fun i j => by norm_num) (le_refl 0) (le_refl 0) (le_refl 0)
      (by norm_num)⟩

/-- C7: for a grid of non-negative entries the affected population is
non-negative and never exceeds the total population, whatever the centre
and the max_distance: the summation window is always a sub-rectangle of
the full grid. -/
theorem affected_nonneg_le_total (grid : ℕ → ℕ → ℚ) (ew ns : ℕ)
    (centre : ℚ × ℚ) (d : ℚ) (hg : ∀ i j, 0 ≤ grid i j) :
    0 ≤ find_affected_population grid ew ns centre d ∧
    find_affected_population grid ew ns centre d ≤
      total_population grid ew ns := by
  rw [find_affected_population_eq]
  unfold total_population
  have hax : ∀ (L : ℕ) (c : ℚ) (r : ℤ),
      axisWindow L c r ⊆ Finset.range L := by
    intro L c r i hi
    rw [Finset.mem_range]
    have hm := Finset.mem_Ico.mp hi
    exact lt_of_lt_of_le hm.2 (sliceBound_le L _)
  constructor
  · exact Finset.sum_nonneg fun i _ => Finset.sum_nonneg fun j _ => hg i j
  · refine le_trans
      (Finset.sum_le_sum fun i _ =>
        Finset.sum_le_sum_of_subset_of_nonneg (hax ns (centre.2 / 100) _)
          fun j _ _ => hg i j)
      (Finset.sum_le_sum_of_subset_of_nonneg (hax ew (centre.1 / 100) _)
        fun i _ _ => Finset.sum_nonneg fun j _ => hg i j)

theorem affected_nonneg_le_total_witness :
    (∀ i j : ℕ, 0 ≤ (fun (_ : ℕ) (_ : ℕ) => (2 : ℚ)) i j) ∧
    (0 ≤ find_affected_population (fun _ _ => (2 : ℚ)) 2 2 (50, 50) 500 ∧
      find_affected_population (fun _ _ => (2 : ℚ)) 2 2 (50, 50) 500 ≤
        total_population (fun _ _ => (2 : ℚ)) 2 2) :=
  ⟨fun i j => by norm_num,
    affected_nonneg_le_total (fun _ _ => 2) 2 2 (50, 50) 500
      fun i j => by norm_num⟩

/-- C10: when both centre cell coordinates lie inside the grid and
0 ≤ max_distance < 100 (cell range 0), the result is exactly the single
grid cell int(x / 100), int(y / 100): no adjacent cell is included, and
the first grid axis is indexed by the x (east-west) coordinate. -/
theorem affected_single_cell (grid : ℕ → ℕ → ℚ) (ew ns : ℕ)
    (centre : ℚ × ℚ) (d : ℚ)
    (hx0 : 0 ≤ centre.1 / 100) (hx1 : centre.1 / 100 < (ew : ℚ))
    (hy0 : 0 ≤ centre.2 / 100) (hy1 : centre.2 / 100 < (ns : ℚ))
    (hd0 : 0 ≤ d) (hd1 : d < 100) :
    find_affected_population grid ew ns centre d =
      grid (truncQ (centre.1 / 100)).toNat (truncQ (centre.2 / 100)).toNat := by
  have hr : truncQ (d / 100) = 0 := truncQ_eq_zero (by linarith) (by linarith)
  rw [find_affected_population_eq, hr]
  have hsingle : ∀ (L : ℕ) (c : ℚ), 0 ≤ c → c < (L : ℚ) →
      axisWindow L c 0 = {(truncQ c).toNat} := by
    intro L c hc hcL
    ext i
    rw [mem_axisWindow hc (le_refl 0), Finset.mem_singleton,
      truncQ_of_nonneg hc, Int.cast_zero, sub_zero, add_zero]
    have h1 : 0 ≤ ⌊c⌋ := Int.floor_nonneg.mpr hc
    have h2 : ⌊c⌋ < (L : ℤ) := by
      rw [Int.floor_lt]
      exact_mod_cast hcL
    omega
  rw [hsingle ew (centre.1 / 100) hx0 hx1, hsingle ns (centre.2 / 100) hy0 hy1,
    Finset.sum_singleton, Finset.sum_singleton]

theorem affected_single_cell_witness :
    (0 : ℚ) ≤ (250 : ℚ) / 100 ∧ (250 : ℚ) / 100 < ((4 : ℕ) : ℚ) ∧
    (0 : ℚ) ≤ (50 : ℚ) / 100 ∧ (50 : ℚ) / 100 < ((2 : ℕ) : ℚ) ∧
    (0 : ℚ) ≤ 50 ∧ (50 : ℚ) < 100 ∧
    find_affected_population (fun i j => (i * 10 + j : ℚ)) 4 2 (250, 50) 50 =
      (fun i j => (i * 10 + j : ℚ)) (truncQ ((250 : ℚ) / 100)).toNat
        (truncQ ((50 : ℚ) / 100)).toNat :=
  ⟨by norm_num, by norm_num, by norm_num, by norm_num, by norm_num,
    by norm_num,
    affected_single_cell (fun i j => (i * 10 + j : ℚ)) 4 2 (250, 50) 50
      (by norm_num) (by norm_num) (by norm_num) (by norm_num) (by norm_num)
      (by norm_num)⟩
